import Mathlib

/-!
Shallow embedding of the osfs file read/write engine (src/file.c) of the
repository, together with proofs about its specification.

The state carries the filesystem-wide FAT array, the raw data-block region
(as a byte-addressed function), the allocator's supply of free block ids,
and the per-file inode fields i_block (head block id), i_size and i_blocks.
The two mirrored copies kept by the C code (osfs_inode vs the VFS inode)
always receive the same values at the same points, so a single copy is
modelled.

BLOCK_SIZE and osfs_alloc_data_block are declared outside src/file.c
(osfs.h and the superblock code are not part of the given source), so they
are modelled from the spec: BLOCK_SIZE = 4096, and the allocator hands out
free block identifiers on demand, failing when exhausted.
-/

def BLOCK_SIZE : Nat := 4096

structure OsfsState where
  fat : Nat → Nat
  data_blocks : Nat → Nat
  free : List Nat
  i_block : Nat
  i_size : Nat
  i_blocks : Nat

/-- Modelled from the spec: osfs_alloc_data_block is defined outside
src/file.c (it belongs to the Allocator collaborator of spec sections 2
and 6, which hands out free block identifiers on demand and fails when
exhausted).  It pops the next free block id, or fails when none remain. -/
def osfs_alloc_data_block : List Nat → Option (Nat × List Nat)
  | [] => none
  | b :: rest => some (b, rest)

/-- memset(dst, 0, n) over the data region, starting at byte address addr. -/
def memsetZero (d : Nat → Nat) (addr n : Nat) : Nat → Nat :=
  fun a => if addr ≤ a ∧ a < addr + n then 0 else d a

/-- copy_from_user into the data region: byte addresses [addr, addr+n)
receive buf (srcOff + (a - addr)).  The user buffer is modelled as a byte
function, mirroring the C signature (a pointer plus a separate length). -/
def copy_from_user (d : Nat → Nat) (addr : Nat) (buf : Nat → Nat) (srcOff n : Nat) : Nat → Nat :=
  fun a => if addr ≤ a ∧ a < addr + n then buf (srcOff + (a - addr)) else d a

inductive ReadResult where
  | ok (bytes : List Nat) (newPos : Nat)
  | fault
deriving DecidableEq

inductive WriteResult where
  | ok (bytesWritten newPos : Nat)
  | nospc
deriving DecidableEq

/-- osfs_read from src/file.c lines 18-50.  faulty models whether
copy_to_user of a nonzero number of bytes to the destination buffer would
fail (the C code then returns -EFAULT without advancing *ppos).  The
returned state is the state after the call: osfs_read performs no store to
the inode, the FAT or the data region, so it is the input state. -/
def osfs_read (st : OsfsState) (ppos len : Nat) (faulty : Bool) : OsfsState × ReadResult :=
  if st.i_blocks = 0 then (st, .ok [] ppos)
  else if st.i_size ≤ ppos then (st, .ok [] ppos)
  else
    let len2 := if st.i_size < ppos + len then st.i_size - ppos else len
    if faulty ∧ len2 ≠ 0 then (st, .fault)
    else (st, .ok ((List.range len2).map fun i =>
            st.data_blocks (st.i_block * BLOCK_SIZE + ppos + i)) (ppos + len2))

/-- The for-loop of src/file.c line 104: starting from fat_block_pointer =
i_block, pos = 0, block_count = 0, it hops through the FAT while
pos + BLOCK_SIZE < ppos and block_count < i_blocks.  The fuel argument is
i_blocks - block_count, so fuel = 0 is exactly the exit condition
block_count = i_blocks; the recursion is structural and the function is
the exact loop.  Returns (fat_block_pointer, pos). -/
def walkLoop (fat : Nat → Nat) (ppos : Nat) : Nat → Nat → Nat → Nat × Nat
  | 0, fbp, pos => (fbp, pos)
  | fuel + 1, fbp, pos =>
    if pos + BLOCK_SIZE < ppos then walkLoop fat ppos fuel (fat fbp) (pos + BLOCK_SIZE)
    else (fbp, pos)

/-- The while-loop of src/file.c lines 112-128: while pos + BLOCK_SIZE <
ppos, allocate a block, zero it, bump i_blocks, link it after
fat_block_pointer and advance.  On allocation failure the C code returns
the error with the inode already mutated; the Bool is false exactly then.
Each iteration adds BLOCK_SIZE ≥ 1 to pos, so the loop runs at most
ppos / BLOCK_SIZE times; it is always called with fuel = ppos, which is
never exhausted while the loop condition still holds (for ppos = 0 the
condition is false at entry), so the fuel-zero branch coincides with the
ordinary exit. -/
def holeLoop (ppos : Nat) : Nat → OsfsState → Nat → Nat → OsfsState × Nat × Nat × Bool
  | 0, st, fbp, pos => (st, fbp, pos, true)
  | fuel + 1, st, fbp, pos =>
    if pos + BLOCK_SIZE < ppos then
      match osfs_alloc_data_block st.free with
      | none => (st, fbp, pos, false)
      | some (nb, rest) =>
        holeLoop ppos fuel
          { st with free := rest,
                    data_blocks := memsetZero st.data_blocks (nb * BLOCK_SIZE) BLOCK_SIZE,
                    i_blocks := st.i_blocks + 1,
                    fat := fun i => if i = fbp then nb else st.fat i }
          nb (pos + BLOCK_SIZE)
    else (st, fbp, pos, true)

/-- The while-loop of src/file.c lines 140-160: while ppos + len >
i_blocks * BLOCK_SIZE, allocate a block, bump i_blocks, link it, and copy
min(bytes_to_write, BLOCK_SIZE) bytes from buf at offset bytes_written
into it.  On allocation failure the Bool is false and the mutated state is
returned, as in the C code.  Each iteration bumps i_blocks, so the loop
runs at most ceil((ppos+len) / BLOCK_SIZE) times; it is always called with
fuel = ppos + len, which is never exhausted while the condition still
holds, so the fuel-zero branch coincides with the ordinary exit.
Returns (state, bytes_written, success). -/
def writeLoop (ppos len : Nat) (buf : Nat → Nat) : Nat → OsfsState → Nat → Nat → Nat → OsfsState × Nat × Bool
  | 0, st, _fbp, _btw, bw => (st, bw, true)
  | fuel + 1, st, fbp, btw, bw =>
    if st.i_blocks * BLOCK_SIZE < ppos + len then
      match osfs_alloc_data_block st.free with
      | none => (st, bw, false)
      | some (nb, rest) =>
        writeLoop ppos len buf fuel
          { st with free := rest,
                    i_blocks := st.i_blocks + 1,
                    fat := fun i => if i = fbp then nb else st.fat i,
                    data_blocks := copy_from_user st.data_blocks (nb * BLOCK_SIZE) buf bw (min btw BLOCK_SIZE) }
          nb (btw - min btw BLOCK_SIZE) (bw + min btw BLOCK_SIZE)
    else (st, bw, true)

/-- Steps 5-6 of osfs_write (src/file.c lines 162-171) applied to the
outcome of the allocate-and-copy loop: on loop failure, return the
allocation error with the mutated state; on success, set i_size to
max(i_size, ppos + bytes_written) and report bytes_written together with
the cursor advanced by the requested length len. -/
def finishWrite (ppos len : Nat) (r : OsfsState × Nat × Bool) : OsfsState × WriteResult :=
  match r with
  | (st4, _, false) => (st4, .nospc)
  | (st4, bw, true) =>
    ({ st4 with i_size := max st4.i_size (ppos + bw) }, .ok bw (ppos + len))

/-- src/file.c lines 112-171 applied to the outcome of the chain walk and
hole loop: on hole-loop allocation failure, return the error with the
mutated state; otherwise copy the first chunk of
min(len, BLOCK_SIZE - ppos % BLOCK_SIZE) bytes into the resolved block at
intra-block offset ppos % BLOCK_SIZE (src/file.c lines 130-136), then run
the allocate-and-copy loop and finish. -/
def osfsWriteBody (ppos len : Nat) (buf : Nat → Nat) (h : OsfsState × Nat × Nat × Bool) : OsfsState × WriteResult :=
  match h with
  | (st2, _, _, false) => (st2, .nospc)
  | (st2, fbp2, _, true) =>
    let cbw := if BLOCK_SIZE < ppos % BLOCK_SIZE + len then BLOCK_SIZE - ppos % BLOCK_SIZE else len
    let st3 := { st2 with
      data_blocks := copy_from_user st2.data_blocks (fbp2 * BLOCK_SIZE + ppos % BLOCK_SIZE) buf 0 cbw }
    finishWrite ppos len (writeLoop ppos len buf (ppos + len) st3 fbp2 (len - cbw) cbw)

/-- Steps 3-6 of osfs_write (src/file.c lines 95-171), after the head
block is known to exist: walk the chain, extend it with zeroed blocks up
to ppos, then copy the data and update the inode attributes. -/
def osfsWriteAfterHead (st1 : OsfsState) (ppos : Nat) (buf : Nat → Nat) (len : Nat) : OsfsState × WriteResult :=
  let w := walkLoop st1.fat ppos st1.i_blocks st1.i_block 0
  osfsWriteBody ppos len buf (holeLoop ppos ppos st1 w.1 w.2)

/-- osfs_write from src/file.c lines 66-172.  Step 2: if no data block is
allocated yet, allocate one, set it as i_block and reset i_size to 0 and
i_blocks to 1; an allocation failure is returned at once.  Then the rest
of the write runs.  buf is the user buffer (a byte function) and len the
requested byte count, as in the C signature. -/
def osfs_write (st0 : OsfsState) (ppos : Nat) (buf : Nat → Nat) (len : Nat) : OsfsState × WriteResult :=
  if st0.i_blocks = 0 then
    match osfs_alloc_data_block st0.free with
    | none => (st0, .nospc)
    | some (nb, rest) =>
      osfsWriteAfterHead
        { st0 with free := rest, i_block := nb, i_size := 0, i_blocks := 1 } ppos buf len
  else
    osfsWriteAfterHead st0 ppos buf len

/-- A freshly created, still empty file on a fresh filesystem whose FAT
and data region are zero-initialized, with the given list of free block
ids available to the allocator. -/
def initFs (free : List Nat) : OsfsState :=
  { fat := fun _ => 0
    data_blocks := fun _ => 0
    free := free
    i_block := 0
    i_size := 0
    i_blocks := 0 }

/-- Number of bytes a read result carries (0 for a transfer fault). -/
def readCount : ReadResult → Nat
  | .ok bytes _ => bytes.length
  | .fault => 0

/-- File-position cursor after a read: the position the call hands back on
success, and the unchanged old position on a transfer fault. -/
def readPosAfter : ReadResult → Nat → Nat
  | .ok _ p, _ => p
  | .fault, old => old

/-! ### Helper lemmas about the write loops -/

theorem holeLoop_i_size (ppos : Nat) : ∀ (fuel : Nat) (st : OsfsState) (fbp pos : Nat),
    (holeLoop ppos fuel st fbp pos).1.i_size = st.i_size := by
  intro fuel
  induction fuel with
  | zero => intro st fbp pos; rfl
  | succ n ih =>
    intro st fbp pos
    simp only [holeLoop]
    split
    · cases h : st.free with
      | nil => simp [osfs_alloc_data_block, h]
      | cons b rest => simp only [osfs_alloc_data_block, h]; rw [ih]
    · rfl

theorem holeLoop_i_blocks (ppos : Nat) : ∀ (fuel : Nat) (st : OsfsState) (fbp pos k : Nat),
    k ≤ st.i_blocks → k ≤ (holeLoop ppos fuel st fbp pos).1.i_blocks := by
  intro fuel
  induction fuel with
  | zero => intro st fbp pos k hk; exact hk
  | succ n ih =>
    intro st fbp pos k hk
    simp only [holeLoop]
    split
    · cases h : st.free with
      | nil => simpa [osfs_alloc_data_block, h] using hk
      | cons b rest =>
        simp only [osfs_alloc_data_block, h]
        exact ih _ _ _ _ (Nat.le_trans hk (Nat.le_succ _))
    · exact hk

theorem writeLoop_i_size (ppos len : Nat) (buf : Nat → Nat) :
    ∀ (fuel : Nat) (st : OsfsState) (fbp btw bw : Nat),
    (writeLoop ppos len buf fuel st fbp btw bw).1.i_size = st.i_size := by
  intro fuel
  induction fuel with
  | zero => intro st fbp btw bw; rfl
  | succ n ih =>
    intro st fbp btw bw
    simp only [writeLoop]
    split
    · cases h : st.free with
      | nil => simp [osfs_alloc_data_block, h]
      | cons b rest => simp only [osfs_alloc_data_block, h]; rw [ih]
    · rfl

theorem writeLoop_i_blocks (ppos len : Nat) (buf : Nat → Nat) :
    ∀ (fuel : Nat) (st : OsfsState) (fbp btw bw k : Nat),
    k ≤ st.i_blocks → k ≤ (writeLoop ppos len buf fuel st fbp btw bw).1.i_blocks := by
  intro fuel
  induction fuel with
  | zero => intro st fbp btw bw k hk; exact hk
  | succ n ih =>
    intro st fbp btw bw k hk
    simp only [writeLoop]
    split
    · cases h : st.free with
      | nil => simpa [osfs_alloc_data_block, h] using hk
      | cons b rest =>
        simp only [osfs_alloc_data_block, h]
        exact ih _ _ _ _ _ (Nat.le_trans hk (Nat.le_succ _))
    · exact hk

theorem writeLoop_bw_of_btw_zero (ppos len : Nat) (buf : Nat → Nat) :
    ∀ (fuel : Nat) (st : OsfsState) (fbp bw : Nat),
    (writeLoop ppos len buf fuel st fbp 0 bw).2.1 = bw := by
  intro fuel
  induction fuel with
  | zero => intro st fbp bw; rfl
  | succ n ih =>
    intro st fbp bw
    simp only [writeLoop]
    split
    · cases h : st.free with
      | nil => simp [osfs_alloc_data_block, h]
      | cons b rest =>
        simp only [osfs_alloc_data_block, h, Nat.zero_min, Nat.zero_sub, Nat.add_zero]
        exact ih _ _ _
    · rfl

theorem finishWrite_ok (ppos len : Nat) (r : OsfsState × Nat × Bool) (bw p2 : Nat)
    (hok : (finishWrite ppos len r).2 = .ok bw p2) :
    r.2.2 = true ∧ r.2.1 = bw ∧ p2 = ppos + len ∧
    (finishWrite ppos len r).1.i_size = max r.1.i_size (ppos + bw) ∧
    (finishWrite ppos len r).1.i_blocks = r.1.i_blocks := by
  rcases r with ⟨st4, bw4, b4⟩
  cases b4
  · exact absurd hok (by simp [finishWrite])
  · simp only [finishWrite, WriteResult.ok.injEq] at hok
    obtain ⟨hbw, hp⟩ := hok
    subst hbw
    subst hp
    exact ⟨rfl, rfl, rfl, rfl, rfl⟩

theorem finishWrite_nospc (ppos len : Nat) (r : OsfsState × Nat × Bool)
    (hfail : (finishWrite ppos len r).2 = .nospc) :
    (finishWrite ppos len r).1 = r.1 := by
  rcases r with ⟨st4, bw4, b4⟩
  cases b4
  · rfl
  · exact absurd hfail (by simp [finishWrite])

theorem osfsWriteBody_ok (ppos len : Nat) (buf : Nat → Nat) (h : OsfsState × Nat × Nat × Bool)
    (bw p2 : Nat) (hok : (osfsWriteBody ppos len buf h).2 = .ok bw p2) :
    p2 = ppos + len ∧
    (osfsWriteBody ppos len buf h).1.i_size = max h.1.i_size (ppos + bw) ∧
    h.1.i_blocks ≤ (osfsWriteBody ppos len buf h).1.i_blocks ∧
    (len = 0 → bw = 0) := by
  rcases h with ⟨st2, fbp2, pos2, b2⟩
  cases b2
  · exact absurd hok (by simp [osfsWriteBody])
  · simp only [osfsWriteBody] at hok ⊢
    obtain ⟨ht, hbw, hp, hsz, hbl⟩ := finishWrite_ok _ _ _ _ _ hok
    refine ⟨hp, ?_, ?_, ?_⟩
    · rw [hsz, writeLoop_i_size]
    · rw [hbl]
      exact writeLoop_i_blocks _ _ _ _ _ _ _ _ _ (Nat.le_refl _)
    · intro hlen
      subst hlen
      have hmod : ¬ (BLOCK_SIZE < ppos % BLOCK_SIZE + 0) := by
        have : ppos % BLOCK_SIZE < BLOCK_SIZE := Nat.mod_lt _ (by decide)
        omega
      rw [if_neg hmod] at hbw
      rw [← hbw, Nat.sub_self, writeLoop_bw_of_btw_zero]

theorem osfsWriteBody_nospc (ppos len : Nat) (buf : Nat → Nat) (h : OsfsState × Nat × Nat × Bool)
    (hfail : (osfsWriteBody ppos len buf h).2 = .nospc) :
    (osfsWriteBody ppos len buf h).1.i_size = h.1.i_size ∧
    h.1.i_blocks ≤ (osfsWriteBody ppos len buf h).1.i_blocks := by
  rcases h with ⟨st2, fbp2, pos2, b2⟩
  cases b2
  · exact ⟨rfl, Nat.le_refl _⟩
  · simp only [osfsWriteBody] at hfail ⊢
    have h1 := finishWrite_nospc _ _ _ hfail
    constructor
    · rw [h1, writeLoop_i_size]
    · rw [h1]
      exact writeLoop_i_blocks _ _ _ _ _ _ _ _ _ (Nat.le_refl _)

theorem osfsWriteAfterHead_ok (st1 : OsfsState) (ppos : Nat) (buf : Nat → Nat) (len bw p2 : Nat)
    (hok : (osfsWriteAfterHead st1 ppos buf len).2 = .ok bw p2) :
    p2 = ppos + len ∧
    (osfsWriteAfterHead st1 ppos buf len).1.i_size = max st1.i_size (ppos + bw) ∧
    st1.i_blocks ≤ (osfsWriteAfterHead st1 ppos buf len).1.i_blocks ∧
    (len = 0 → bw = 0) := by
  simp only [osfsWriteAfterHead] at hok ⊢
  obtain ⟨hp, hsz, hbl, hz⟩ := osfsWriteBody_ok _ _ _ _ _ _ hok
  refine ⟨hp, ?_, ?_, hz⟩
  · rw [hsz, holeLoop_i_size]
  · exact Nat.le_trans (holeLoop_i_blocks _ _ _ _ _ _ (Nat.le_refl _)) hbl

theorem osfsWriteAfterHead_nospc (st1 : OsfsState) (ppos : Nat) (buf : Nat → Nat) (len : Nat)
    (hfail : (osfsWriteAfterHead st1 ppos buf len).2 = .nospc) :
    (osfsWriteAfterHead st1 ppos buf len).1.i_size = st1.i_size ∧
    st1.i_blocks ≤ (osfsWriteAfterHead st1 ppos buf len).1.i_blocks := by
  simp only [osfsWriteAfterHead] at hfail ⊢
  obtain ⟨h1, h2⟩ := osfsWriteBody_nospc _ _ _ _ hfail
  constructor
  · rw [h1, holeLoop_i_size]
  · exact Nat.le_trans (holeLoop_i_blocks _ _ _ _ _ _ (Nat.le_refl _)) h2

theorem osfs_write_ok (st : OsfsState) (ppos : Nat) (buf : Nat → Nat) (len bw p2 : Nat)
    (hok : (osfs_write st ppos buf len).2 = .ok bw p2) :
    p2 = ppos + len ∧
    (osfs_write st ppos buf len).1.i_size
      = max (if st.i_blocks = 0 then 0 else st.i_size) (ppos + bw) ∧
    (len = 0 → bw = 0) ∧
    (st.i_blocks = 0 → 1 ≤ (osfs_write st ppos buf len).1.i_blocks) := by
  by_cases h0 : st.i_blocks = 0
  · rw [osfs_write, if_pos h0] at hok ⊢
    cases hfree : st.free with
    | nil =>
      rw [hfree] at hok
      simp [osfs_alloc_data_block] at hok
    | cons b rest =>
      rw [hfree] at hok
      simp only [osfs_alloc_data_block] at hok ⊢
      obtain ⟨hp, hsz, hbl, hz⟩ := osfsWriteAfterHead_ok _ _ _ _ _ _ hok
      refine ⟨hp, ?_, hz, fun _ => hbl⟩
      rw [hsz, if_pos h0]
  · rw [osfs_write, if_neg h0] at hok ⊢
    obtain ⟨hp, hsz, hbl, hz⟩ := osfsWriteAfterHead_ok _ _ _ _ _ _ hok
    refine ⟨hp, ?_, hz, fun hc => absurd hc h0⟩
    rw [hsz, if_neg h0]

theorem osfs_write_nospc (st : OsfsState) (ppos : Nat) (buf : Nat → Nat) (len : Nat)
    (hinv : st.i_blocks = 0 → st.i_size = 0)
    (hfail : (osfs_write st ppos buf len).2 = .nospc) :
    (osfs_write st ppos buf len).1.i_size = st.i_size ∧
    st.i_blocks ≤ (osfs_write st ppos buf len).1.i_blocks := by
  by_cases h0 : st.i_blocks = 0
  · rw [osfs_write, if_pos h0] at hfail ⊢
    cases hfree : st.free with
    | nil =>
      rw [hfree] at hfail
      simp only [osfs_alloc_data_block] at hfail ⊢
      exact ⟨trivial, Nat.le_refl _⟩
    | cons b rest =>
      rw [hfree] at hfail
      simp only [osfs_alloc_data_block] at hfail ⊢
      obtain ⟨h1, _h2⟩ := osfsWriteAfterHead_nospc _ _ _ _ hfail
      constructor
      · rw [h1, hinv h0]
      · rw [h0]
        exact Nat.zero_le _
  · rw [osfs_write, if_neg h0] at hfail ⊢
    exact osfsWriteAfterHead_nospc _ _ _ _ hfail

/-! ### Concrete states used by the claim evaluations -/

/-- A user buffer for the round-trip scenario: six 1-bytes then 2-bytes. -/
def c1buf : Nat → Nat := fun i => if i < 6 then 1 else 2

/-- The write of 10 bytes at offset 4090 on a fresh empty file whose
allocator supply is the fragmented free list [0, 5]. -/
def c1after : OsfsState × WriteResult := osfs_write (initFs [0, 5]) 4090 c1buf 10

/-- The concrete file of spec section 8: size 5000 (2 blocks), content
bytes all 2, chain 0 -> 1, stored contiguously from block 0 exactly as the
engine itself lays a file out; one further free block is available. -/
def c2file : OsfsState :=
  { fat := fun i => if i = 0 then 1 else 0
    data_blocks := fun a => if a < 5000 then 2 else 0
    free := [2]
    i_block := 0
    i_size := 5000
    i_blocks := 2 }

/-- The spec scenario write: 10 payload bytes (all 1) at offset 10000. -/
def c2after : OsfsState × WriteResult := osfs_write c2file 10000 (fun _ => 1) 10

/-- Allocator exhaustion mid-write: fresh empty file, two free blocks,
write of 200 bytes at offset 8000 (which needs three blocks). -/
def c3after : OsfsState × WriteResult := osfs_write (initFs [0, 1]) 8000 (fun _ => 3) 200

/-- First write of the C4 sequence: a hole-creating write of 10 bytes at
offset 8000 on a fresh empty file. -/
def c4mid : OsfsState × WriteResult := osfs_write (initFs [0, 1, 2]) 8000 (fun _ => 4) 10

/-- Second write of the C4 sequence: 4099 bytes at offset 4095, inside
the file but extending past the allocated area. -/
def c4after : OsfsState × WriteResult := osfs_write c4mid.1 4095 (fun _ => 5) 4099

/-- A one-block file of size 5 with no free blocks left. -/
def smallFs : OsfsState :=
  { fat := fun _ => 0
    data_blocks := fun _ => 0
    free := []
    i_block := 0
    i_size := 5
    i_blocks := 1 }

/-! ### Claim theorems -/

/-- Claim C1: the spec states that a successful write of data at offset
off followed immediately by a read at off of the same length returns
exactly the written data.  The code violates this: osfs_read copies
physically contiguous bytes starting at i_block * BLOCK_SIZE + ppos and
never follows the FAT chain, so bytes written past the first block of the
chain (here into block 5) are not seen by the read, which returns stale
zeros instead.  This theorem evaluates the code at the failing input. -/
theorem write_read_roundtrip_violated :
    c1after.2 = .ok 10 4100 ∧
    (osfs_read c1after.1 4090 10 false).2 = .ok [1, 1, 1, 1, 1, 1, 0, 0, 0, 0] 4100 ∧
    [1, 1, 1, 1, 1, 1, 0, 0, 0, 0] ≠ (List.range 10).map c1buf := by decide

/-- Claim C2: the spec scenario (BLOCK_SIZE 4096, file of size 5000 with 2
blocks, write 10 bytes at offset 10000) expects block_count 3, the region
[5000,10000) to read back zero, [10000,10010) to read back the payload and
size 10010.  The code delivers block_count 3, size 10010 and zeros over
the hole, but the payload read at [10000,10010) also returns zeros: the
chain walk overshoots the tail through the FAT entry of the last block,
the payload is stored at file offset 1808 inside block 0 (readable there,
corrupting old data), the freshly allocated block 2 is never written or
zeroed, and the new block is linked after block 0, replacing the link to
block 1.  This theorem evaluates the code on the scenario. -/
theorem hole_write_scenario_violated :
    c2after.2 = .ok 10 10010 ∧
    c2after.1.i_blocks = 3 ∧
    c2after.1.i_size = 10010 ∧
    (osfs_read c2after.1 5000 10 false).2 = .ok (List.replicate 10 0) 5010 ∧
    (osfs_read c2after.1 7000 10 false).2 = .ok (List.replicate 10 0) 7010 ∧
    (osfs_read c2after.1 9990 10 false).2 = .ok (List.replicate 10 0) 10000 ∧
    (osfs_read c2after.1 10000 10 false).2 = .ok (List.replicate 10 0) 10010 ∧
    List.replicate 10 0 ≠ (List.range 10).map (fun _ => 1) ∧
    (osfs_read c2after.1 1808 10 false).2 = .ok (List.replicate 10 1) 1818 ∧
    c2after.1.fat 0 = 2 := by decide

/-- Claim C3 counterexample: after allocator exhaustion mid-write (fresh
file, free blocks 0 and 1, write of 200 bytes at offset 8000 needing a
third block), the write reports the error and the two committed blocks
remain linked (fat 0 = 1) holding the transferred bytes, but i_size is
left at 0, its pre-call value, so the metadata is not consistent with the
committed progress: block_count 2 is not ceil(size_bytes / BLOCK_SIZE). -/
theorem alloc_exhaustion_metadata_inconsistent :
    c3after.2 = .nospc ∧
    c3after.1.i_blocks = 2 ∧
    c3after.1.fat 0 = 1 ∧
    c3after.1.data_blocks 3904 = 3 ∧
    c3after.1.data_blocks 4095 = 3 ∧
    c3after.1.data_blocks 4096 = 3 ∧
    c3after.1.data_blocks 4103 = 3 ∧
    c3after.1.data_blocks 4104 = 0 ∧
    c3after.1.i_size = 0 ∧
    c3after.1.i_blocks ≠ (c3after.1.i_size + (BLOCK_SIZE - 1)) / BLOCK_SIZE := by decide

/-- Claim C3 (amended): when the allocator is exhausted mid-call the write
reports the out-of-space error, previously linked blocks and their data
remain committed (block_count never decreases), but size_bytes is left at
its pre-call value - the i_size update runs only after a fully successful
transfer - so size_bytes does not reflect the committed progress. -/
theorem write_nospc_partial_progress (st : OsfsState) (ppos : Nat) (buf : Nat → Nat) (len : Nat)
    (hinv : st.i_blocks = 0 → st.i_size = 0)
    (hfail : (osfs_write st ppos buf len).2 = .nospc) :
    (osfs_write st ppos buf len).1.i_size = st.i_size ∧
    st.i_blocks ≤ (osfs_write st ppos buf len).1.i_blocks :=
  osfs_write_nospc st ppos buf len hinv hfail

theorem write_nospc_partial_progress_witness :
    (osfs_write (initFs []) 0 (fun _ => 1) 1).1.i_size = (initFs []).i_size ∧
    (initFs []).i_blocks ≤ (osfs_write (initFs []) 0 (fun _ => 1) 1).1.i_blocks :=
  write_nospc_partial_progress (initFs []) 0 (fun _ => 1) 1 (by decide) (by decide)

/-- Claim C4: the spec states block_count = ceil(size_bytes / BLOCK_SIZE)
after every successful write sequence from an empty file.  The code
violates this: starting empty, a hole write of 10 bytes at offset 8000
leaves a consistent 2-block file of size 8010, but a following successful
write of 4099 bytes at offset 4095 transfers only 4097 bytes (the
allocate-and-copy loop exits on the block-count condition with 2 bytes
still pending), allocates a third block and leaves size 8192, so
block_count 3 differs from ceil(8192 / 4096) = 2.  This theorem evaluates
the code on that sequence. -/
theorem block_count_invariant_violated :
    c4mid.2 = .ok 10 8010 ∧
    c4mid.1.i_blocks = 2 ∧
    c4mid.1.i_size = 8010 ∧
    c4mid.1.i_blocks = (c4mid.1.i_size + (BLOCK_SIZE - 1)) / BLOCK_SIZE ∧
    c4after.2 = .ok 4097 8194 ∧
    c4after.1.i_blocks = 3 ∧
    c4after.1.i_size = 8192 ∧
    c4after.1.i_blocks ≠ (c4after.1.i_size + (BLOCK_SIZE - 1)) / BLOCK_SIZE := by decide

/-- Claim C5 counterexample: a zero-byte write at offset 7 on an empty
file succeeds with bytes_written 0 but allocates a head block
(block_count becomes 1 instead of staying 0) and sets size_bytes to 7
instead of leaving it at 0. -/
theorem zero_write_allocates_and_grows :
    (osfs_write (initFs [0]) 7 (fun _ => 9) 0).2 = .ok 0 7 ∧
    (initFs [0]).i_blocks = 0 ∧
    (osfs_write (initFs [0]) 7 (fun _ => 9) 0).1.i_blocks = 1 ∧
    (initFs [0]).i_size = 0 ∧
    (osfs_write (initFs [0]) 7 (fun _ => 9) 0).1.i_size = 7 := by decide

/-- Claim C5 (amended): a successful zero-byte write returns
bytes_written 0 and transfers nothing, but when no block existed a head
block is allocated (block_count becomes at least 1), and size_bytes
afterwards is max(previous size, offset), the previous size counting as 0
when the file was empty. -/
theorem write_zero_length_behavior (st : OsfsState) (ppos : Nat) (buf : Nat → Nat) (bw p2 : Nat)
    (hok : (osfs_write st ppos buf 0).2 = .ok bw p2) :
    bw = 0 ∧
    (osfs_write st ppos buf 0).1.i_size = max (if st.i_blocks = 0 then 0 else st.i_size) ppos ∧
    (st.i_blocks = 0 → 1 ≤ (osfs_write st ppos buf 0).1.i_blocks) := by
  obtain ⟨hp, hsz, hz, hb⟩ := osfs_write_ok st ppos buf 0 bw p2 hok
  have hbw : bw = 0 := hz rfl
  subst hbw
  exact ⟨rfl, by simpa using hsz, hb⟩

theorem write_zero_length_behavior_witness :
    (0 : Nat) = 0 ∧
    (osfs_write (initFs [0]) 7 (fun _ => 9) 0).1.i_size
      = max (if (initFs [0]).i_blocks = 0 then 0 else (initFs [0]).i_size) 7 ∧
    ((initFs [0]).i_blocks = 0 → 1 ≤ (osfs_write (initFs [0]) 7 (fun _ => 9) 0).1.i_blocks) :=
  write_zero_length_behavior (initFs [0]) 7 (fun _ => 9) 0 7 (by decide)

/-- Claim C6: after any successful write, size_bytes equals
max(previous size, offset + bytes_written); in particular size_bytes
never decreases across writes.  The previous size is taken under the
extent invariant that an empty file (no block allocated) has size 0. -/
theorem write_size_is_max_of_prev_and_end (st : OsfsState) (ppos : Nat) (buf : Nat → Nat)
    (len bw p2 : Nat)
    (hinv : st.i_blocks = 0 → st.i_size = 0)
    (hok : (osfs_write st ppos buf len).2 = .ok bw p2) :
    (osfs_write st ppos buf len).1.i_size = max st.i_size (ppos + bw) ∧
    st.i_size ≤ (osfs_write st ppos buf len).1.i_size := by
  obtain ⟨_, hsz, _, _⟩ := osfs_write_ok st ppos buf len bw p2 hok
  have hpre : (if st.i_blocks = 0 then 0 else st.i_size) = st.i_size := by
    by_cases h0 : st.i_blocks = 0
    · rw [if_pos h0, hinv h0]
    · rw [if_neg h0]
  rw [hpre] at hsz
  refine ⟨hsz, ?_⟩
  rw [hsz]
  exact Nat.le_max_left _ _

theorem write_size_is_max_of_prev_and_end_witness :
    (osfs_write (initFs [0]) 0 (fun _ => 5) 1).1.i_size = max (initFs [0]).i_size (0 + 1) ∧
    (initFs [0]).i_size ≤ (osfs_write (initFs [0]) 0 (fun _ => 5) 1).1.i_size :=
  write_size_is_max_of_prev_and_end (initFs [0]) 0 (fun _ => 5) 1 1 1 (by decide) (by decide)

/-- Claim C7: a read whose requested length exceeds size_bytes - offset
(with offset < size_bytes, on an extent satisfying the invariant that no
blocks means size 0, and with a valid destination buffer) returns exactly
size_bytes - offset bytes, which is strictly fewer than requested - reads
never return bytes beyond the logical end of file. -/
theorem read_clamps_to_remaining (st : OsfsState) (ppos len : Nat)
    (hinv : st.i_blocks = 0 → st.i_size = 0)
    (h1 : ppos < st.i_size) (h2 : st.i_size < ppos + len) :
    readCount (osfs_read st ppos len false).2 = st.i_size - ppos ∧
    st.i_size - ppos < len := by
  have hb : ¬ st.i_blocks = 0 := by
    intro h0
    rw [hinv h0] at h1
    exact Nat.not_lt_zero _ h1
  refine ⟨?_, by omega⟩
  rw [osfs_read, if_neg hb, if_neg (Nat.not_le.mpr h1)]
  simp only [if_pos h2, Bool.false_eq_true, false_and, if_false, readCount,
    List.length_map, List.length_range]

theorem read_clamps_to_remaining_witness :
    readCount (osfs_read smallFs 3 100 false).2 = smallFs.i_size - 3 ∧
    smallFs.i_size - 3 < 100 :=
  read_clamps_to_remaining smallFs 3 100 (by decide) (by decide) (by decide)

/-- Claim C8: a read on an extent with no allocated block, or at an offset
at least size_bytes, returns an empty result (0 bytes) and no error, and
this holds whatever the state of the destination buffer, since the code
returns before any copy. -/
theorem read_empty_or_past_eof_returns_nothing (st : OsfsState) (ppos len : Nat) (faulty : Bool)
    (h : st.i_blocks = 0 ∨ st.i_size ≤ ppos) :
    (osfs_read st ppos len faulty).2 = .ok [] ppos := by
  rcases h with h | h
  · rw [osfs_read, if_pos h]
  · by_cases h0 : st.i_blocks = 0
    · rw [osfs_read, if_pos h0]
    · rw [osfs_read, if_neg h0, if_pos h]

theorem read_empty_or_past_eof_returns_nothing_witness :
    (osfs_read (initFs []) 0 5 true).2 = .ok [] 0 :=
  read_empty_or_past_eof_returns_nothing (initFs []) 0 5 true (by decide)

/-- Claim C9: every write that completes without a transfer fault or
allocation failure advances the file-position cursor by len, the
originally requested length, even when bytes_written is smaller. -/
theorem write_advances_cursor_by_requested_length (st : OsfsState) (ppos : Nat) (buf : Nat → Nat)
    (len bw p2 : Nat) (hok : (osfs_write st ppos buf len).2 = .ok bw p2) :
    p2 = ppos + len :=
  (osfs_write_ok st ppos buf len bw p2 hok).1

theorem write_advances_cursor_by_requested_length_witness :
    (8194 : Nat) = 4095 + 4099 :=
  write_advances_cursor_by_requested_length c4mid.1 4095 (fun _ => 5) 4099 4097 8194 (by decide)

/-- Claim C10: every read call leaves the whole state (inode metadata, FAT
and data region) unchanged, and the cursor position it hands back to its
caller is the old position plus the number of bytes returned: on a
transfer fault or a zero-byte result the cursor does not advance. -/
theorem read_only_mutates_cursor (st : OsfsState) (ppos len : Nat) (faulty : Bool) :
    (osfs_read st ppos len faulty).1 = st ∧
    readPosAfter (osfs_read st ppos len faulty).2 ppos
      = ppos + readCount (osfs_read st ppos len faulty).2 := by
  simp only [osfs_read]
  split
  · exact ⟨rfl, by simp [readPosAfter, readCount]⟩
  · split
    · exact ⟨rfl, by simp [readPosAfter, readCount]⟩
    · split
      · split
        · exact ⟨rfl, by simp [readPosAfter, readCount]⟩
        · exact ⟨rfl, by simp [readPosAfter, readCount]⟩
      · split
        · exact ⟨rfl, by simp [readPosAfter, readCount]⟩
        · exact ⟨rfl, by simp [readPosAfter, readCount]⟩
